import Mathlib

/-!
# Verification of the x402-agent-gateway payment-gated invocation core

Shallow embedding of the server core of the `x402-agent-gateway` repository
(`packages/server/src`): the tool registry (`registry.ts`), the price
resolver for token-based chat pricing (`router.ts`, `calculateTokenBasedPrice`),
the payment middleware state machine (`payment-middleware.ts`,
`createPaymentMiddleware` / `performSettlement`), and the chat proxy glue
(`router.ts`, `createX402Router`).

Conventions of the embedding:
* JSON object bodies are modelled as association lists `List (String × String)`.
* Numeric amounts (strings parsed with `parseFloat` in the source) are
  modelled as exact rationals `Rat`; the claims under verification only
  involve values on which floating point and exact arithmetic agree.
* Fallible TypeScript code (functions that `throw`) is modelled with
  `Except String`.
* The external payment facilitator (`x402-solana`'s `X402PaymentHandler`)
  is an explicit record of functions (`Facilitator`), since the repository
  only orchestrates calls to it.
* Side effects relevant to the temporal claims are recorded in an event
  trace (`Ev`).
-/

/-- A JSON object body, as an association list of string fields.
`none` models an absent (`undefined`) request body. -/
abbrev Body := List (String × String)

/-- `PaymentPrice` from `types.ts`: asset symbol, amount (string in the
source, exact rational here) and optional SPL token mint address. -/
structure PaymentPrice where
  asset : String
  amount : Rat
  mint : Option String
deriving DecidableEq, Repr

/-- A tool's price field: either a fixed `PaymentPrice` or a function of
the (raw) request body (`payment-middleware.ts` accepts
`PaymentPrice | ((args) => PaymentPrice | Promise<PaymentPrice>)`). -/
inductive PriceSpec where
  | fixed (p : PaymentPrice)
  | fn (f : Body → Except String PaymentPrice)

/-- JavaScript string truthiness for optional string fields: an absent field
and the empty string are both falsy. -/
def strTruthy : Option String → Option String
  | none => none
  | some s => if s = "" then none else some s

/-- `orDefaultStr o d` models `o || d` on JavaScript strings. -/
def orDefaultStr (o : Option String) (d : String) : String :=
  match strTruthy o with
  | none => d
  | some s => s

/-- A Zod schema, reduced to what the server core uses of it: the `parse`
validator (throwing on invalid input) and its `toJSONSchema` serialization. -/
structure Schema where
  parse : Option Body → Except String Body
  json : List (String × String)

/-- `RegisteredTool` from `types.ts`. The handler is an arbitrary fallible
function from validated input to a result (a JSON object). -/
structure RegisteredTool where
  name : String
  description : String
  inputSchema : Schema
  outputSchema : Option Schema
  price : PriceSpec
  handler : Body → Except String Body

/-! ## Tool registry (`registry.ts`) -/

/-- The serialized price in a tool's metadata: the fixed price as-is, or the
`{ dynamic: true }` marker for function-valued prices (`registry.ts`,
`getMetadata`). -/
inductive PriceMeta where
  | fixed (p : PaymentPrice)
  | dynamicMarker
deriving DecidableEq, Repr

/-- `ToolMetadata` from `types.ts`, as produced by `registry.getMetadata`:
the public projection of a tool. It has no handler field. -/
structure ToolMetadata where
  name : String
  description : String
  inputSchema : List (String × String)
  outputSchema : Option (List (String × String))
  price : PriceMeta
deriving DecidableEq, Repr

/-- The in-memory tool registry: a name-keyed insertion-ordered map
(`Map<string, RegisteredTool>` in `registry.ts`). -/
structure ToolRegistry where
  tools : List (String × RegisteredTool)

/-- Whether a tool of the given name is registered (`this.tools.has(name)`). -/
def ToolRegistry.hasName (r : ToolRegistry) (n : String) : Bool :=
  r.tools.any (fun nt => nt.1 == n)

/-- `registry.register(tool)`: throws when the name is taken, otherwise
stores the tool under its name. -/
def ToolRegistry.register (r : ToolRegistry) (t : RegisteredTool) :
    Except String ToolRegistry :=
  if r.hasName t.name then
    .error ("Tool " ++ t.name ++ " is already registered")
  else
    .ok ⟨r.tools ++ [(t.name, t)]⟩

/-- `registry.get(name)`. -/
def ToolRegistry.get (r : ToolRegistry) (n : String) : Option RegisteredTool :=
  (r.tools.find? (fun nt => nt.1 == n)).map (fun nt => nt.2)

/-- `registry.getAll()`. -/
def ToolRegistry.getAll (r : ToolRegistry) : List RegisteredTool :=
  r.tools.map (fun nt => nt.2)

/-- `registry.clear()`. -/
def ToolRegistry.clear (_ : ToolRegistry) : ToolRegistry := ⟨[]⟩

/-- The metadata projection of one tool (`registry.ts`, loop body of
`getMetadata`): serialize the schemas, serialize a function price as the
`{ dynamic: true }` marker, and drop the handler. -/
def metadataOf (t : RegisteredTool) : ToolMetadata :=
  { name := t.name
    description := t.description
    inputSchema := t.inputSchema.json
    outputSchema := t.outputSchema.map (fun s => s.json)
    price :=
      match t.price with
      | .fn _ => .dynamicMarker
      | .fixed p => .fixed p }

/-- `registry.getMetadata()`: the projection of every registered tool. -/
def ToolRegistry.getMetadata (r : ToolRegistry) : List ToolMetadata :=
  r.tools.map (fun nt => metadataOf nt.2)

/-! ## Registry theorems (claims C7, C8) -/

/-- **C7.** Registering a tool whose name is already taken fails with the
duplicate-tool error and leaves the registry unchanged (so the original tool
is still the one returned by `get`); registering a fresh name succeeds and
stores the tool; and after `clear()` a previously registered name can be
registered again. -/
theorem register_duplicate_clear (r : ToolRegistry) (t u v : RegisteredTool)
    (hdup : r.hasName t.name = true) (hfresh : r.hasName u.name = false) :
    r.register t = .error ("Tool " ++ t.name ++ " is already registered") ∧
      (∀ n, (match r.register t with
        | .ok r' => r'.get n
        | .error _ => r.get n) = r.get n) ∧
      (∃ r', r.register u = .ok r' ∧ r'.get u.name = some u) ∧
      (∃ r', (r.clear).register v = .ok r' ∧ r'.get v.name = some v) := by
  refine ⟨?_, ?_, ?_, ?_⟩
  · simp [ToolRegistry.register, hdup]
  · intro n
    simp [ToolRegistry.register, hdup]
  · refine ⟨⟨r.tools ++ [(u.name, u)]⟩, ?_, ?_⟩
    · simp [ToolRegistry.register, hfresh]
    · have hnone : r.tools.find? (fun nt => nt.1 == u.name) = none := by
        rw [List.find?_eq_none]
        intro x hx
        by_contra hbeq
        have : r.hasName u.name = true := by
          simp only [ToolRegistry.hasName, List.any_eq_true]
          exact ⟨x, hx, by simpa using hbeq⟩
        simp [hfresh] at this
      simp [ToolRegistry.get, List.find?_append, hnone]
  · exact ⟨⟨[(v.name, v)]⟩, by simp [ToolRegistry.clear, ToolRegistry.register,
      ToolRegistry.hasName], by simp [ToolRegistry.get]⟩

/-- Concrete witness data for the registry theorems: a trivial schema. -/
def schemaAny : Schema :=
  { parse := fun b => .ok (b.getD []), json := [("type", "object")] }

/-- A concrete fixed USDC price (10000 micro-USDC) used as witness data. -/
def usdcPrice : PaymentPrice :=
  ⟨"USDC", 10000, some "EPjFWdd5AufqSSqeM2qN1xzybapC8G4wEGGkZwyTDt1v"⟩

/-- A concrete fixed-price echo tool used as witness data. -/
def echoTool : RegisteredTool :=
  { name := "echo"
    description := "Echoes back the input message"
    inputSchema := schemaAny
    outputSchema := none
    price := .fixed usdcPrice
    handler := fun b => .ok [("result", String.intercalate "," (b.map (fun kv => kv.2)))] }

/-- A concrete function-priced tool used as witness data. -/
def dynamicTool : RegisteredTool :=
  { name := "dynamic-price-tool"
    description := "Tool with dynamic pricing"
    inputSchema := schemaAny
    outputSchema := none
    price := .fn (fun _ => .ok ⟨"SOL", (1 : Rat) / 1000, none⟩)
    handler := fun _ => .ok [("result", "done")] }

/-- Witness for C7 at a concrete registry holding `echoTool`. -/
theorem register_duplicate_clear_witness :
    ((ToolRegistry.mk [("echo", echoTool)]).hasName echoTool.name = true ∧
      (ToolRegistry.mk [("echo", echoTool)]).hasName dynamicTool.name = false) ∧
      ((ToolRegistry.mk [("echo", echoTool)]).register echoTool
          = .error ("Tool " ++ echoTool.name ++ " is already registered") ∧
        (∀ n, (match (ToolRegistry.mk [("echo", echoTool)]).register echoTool with
          | .ok r' => r'.get n
          | .error _ => (ToolRegistry.mk [("echo", echoTool)]).get n)
            = (ToolRegistry.mk [("echo", echoTool)]).get n) ∧
        (∃ r', (ToolRegistry.mk [("echo", echoTool)]).register dynamicTool = .ok r' ∧
          r'.get dynamicTool.name = some dynamicTool) ∧
        (∃ r', ((ToolRegistry.mk [("echo", echoTool)]).clear).register echoTool = .ok r' ∧
          r'.get echoTool.name = some echoTool)) :=
  ⟨⟨rfl, rfl⟩, register_duplicate_clear (ToolRegistry.mk [("echo", echoTool)])
    echoTool dynamicTool echoTool rfl rfl⟩

/-- **C8.** The metadata projection never depends on the handler (replacing
the handler leaves every metadata entry unchanged), and for every registered
tool whose price is a function, the corresponding metadata entry's price
field is the `{ dynamic: true }` marker — not the function nor a fixed
price; fixed prices are passed through unchanged. -/
theorem metadata_no_handler_dynamic_price (r : ToolRegistry) (n : String)
    (t : RegisteredTool) (g : Body → Except String PaymentPrice)
    (hmem : (n, t) ∈ r.tools) (hfn : t.price = .fn g) :
    (∀ h, metadataOf { t with handler := h } = metadataOf t) ∧
      metadataOf t ∈ r.getMetadata ∧
      (metadataOf t).price = .dynamicMarker ∧
      (∀ u : RegisteredTool, ∀ p, u.price = .fixed p →
        (metadataOf u).price = .fixed p) := by
  refine ⟨fun h => rfl, ?_, ?_, ?_⟩
  · exact List.mem_map.mpr ⟨(n, t), hmem, rfl⟩
  · simp [metadataOf, hfn]
  · intro u p hp
    simp [metadataOf, hp]

/-- Witness for C8 at a concrete registry holding the function-priced tool. -/
theorem metadata_no_handler_dynamic_price_witness :
    ((("dynamic-price-tool", dynamicTool)
        ∈ (ToolRegistry.mk [("dynamic-price-tool", dynamicTool)]).tools) ∧
      dynamicTool.price = .fn (fun _ => .ok ⟨"SOL", (1 : Rat) / 1000, none⟩)) ∧
      ((∀ h, metadataOf { dynamicTool with handler := h } = metadataOf dynamicTool) ∧
        metadataOf dynamicTool
          ∈ (ToolRegistry.mk [("dynamic-price-tool", dynamicTool)]).getMetadata ∧
        (metadataOf dynamicTool).price = .dynamicMarker ∧
        (∀ u : RegisteredTool, ∀ p, u.price = .fixed p →
          (metadataOf u).price = .fixed p)) :=
  ⟨⟨by simp, rfl⟩,
    metadata_no_handler_dynamic_price
      (ToolRegistry.mk [("dynamic-price-tool", dynamicTool)])
      "dynamic-price-tool" dynamicTool _ (by simp) rfl⟩

/-! ## Token-based chat pricing (`router.ts`, `calculateTokenBasedPrice`) -/

/-- The `function` part of a recorded tool call inside a chat message. -/
structure ToolCallFn where
  name : String
  arguments : String
deriving DecidableEq, Repr

/-- `ChatMessage` from `types.ts` (role, content, optional tool calls). -/
structure ChatMessage where
  role : String
  content : String
  tool_calls : Option (List ToolCallFn)
deriving DecidableEq, Repr

/-- `TokenBasedPricing` from the server package: per-token cost, optional
base amount, optional min/max clamps, and the model vocabulary used for
token counting. -/
structure TokenBasedPricing where
  asset : String
  mint : Option String
  costPerToken : Rat
  baseAmount : Option Rat
  min : Option Rat
  max : Option Rat
  model : Option String
deriving DecidableEq, Repr

/-- Tokens counted for one message by `calculateTokenBasedPrice`'s loop:
the content's tokens (skipped when content is falsy, i.e. empty) plus, for
each recorded tool call, the tokens of its name and arguments. The encoder
`enc` abstracts tiktoken's `encoding.encode(s).length`. -/
def messageTokens (enc : String → Nat) (m : ChatMessage) : Nat :=
  (if m.content = "" then 0 else enc m.content) +
    (match m.tool_calls with
     | none => 0
     | some tcs => (tcs.map (fun tc => enc tc.name + enc tc.arguments)).sum)

/-- Total tokens across all messages. -/
def countTokens (enc : String → Nat) (messages : List ChatMessage) : Nat :=
  (messages.map (messageTokens enc)).sum

/-- `calculateTokenBasedPrice` from `router.ts`. `encOpt = some enc` is the
case where `encoding_for_model` succeeds and counting uses `enc`;
`encOpt = none` is the catch branch (token counting failed), which falls
back to the base amount clamped from below by `min`. In the successful
case the source computes `base + tokens * costPerToken`, then applies the
`min` clamp (`Math.max`) and afterwards the `max` clamp (`Math.min`). -/
def calculateTokenBasedPrice (pricing : TokenBasedPricing)
    (encOpt : Option (String → Nat)) (messages : List ChatMessage) : PaymentPrice :=
  match encOpt with
  | some enc =>
    let totalTokens := countTokens enc messages
    let baseAmount := pricing.baseAmount.getD 0
    let totalAmount0 := baseAmount + (totalTokens : Rat) * pricing.costPerToken
    let totalAmount1 :=
      match pricing.min with
      | some m => max totalAmount0 m
      | none => totalAmount0
    let totalAmount2 :=
      match pricing.max with
      | some mx => min totalAmount1 mx
      | none => totalAmount1
    { asset := pricing.asset, amount := totalAmount2, mint := pricing.mint }
  | none =>
    let baseAmount := pricing.baseAmount.getD 0
    let fallbackAmount :=
      match pricing.min with
      | some m => max baseAmount m
      | none => baseAmount
    { asset := pricing.asset, amount := fallbackAmount, mint := pricing.mint }

/-- The clamp as the claim words it: `clamp(x, min, max)` in which the `min`
bound wins over the `max` bound when `min > max` — i.e. the `max` bound is
applied first and the `min` bound last. This follows the claim's words, for
comparison with the source's computation. -/
def clampMinWins (x : Rat) (lo hi : Option Rat) : Rat :=
  let afterMax :=
    match hi with
    | some h => min x h
    | none => x
  match lo with
  | some l => max afterMax l
  | none => afterMax

/-- The clamp the source actually computes: the `min` bound is applied
first (`Math.max`) and the `max` bound afterwards (`Math.min`), so when
`min > max` the `max` bound wins. -/
def clampMaxWins (x : Rat) (lo hi : Option Rat) : Rat :=
  let afterMin :=
    match lo with
    | some l => max x l
    | none => x
  match hi with
  | some h => min afterMin h
  | none => afterMin

/-- A misconfigured pricing (`min = 10 > max = 7`) exposing which clamp
bound wins. -/
def cexPricing : TokenBasedPricing :=
  { asset := "USDC", mint := some "MintAddr", costPerToken := 1
    baseAmount := some 0, min := some 10, max := some 7, model := none }

/-- An encoder counting 5 units for any text (the encoder is external
tiktoken state; only the count matters). -/
def cexEnc : String → Nat := fun _ => 5

/-- A single user message (counted at 5 units by `cexEnc`). -/
def cexMessages : List ChatMessage := [⟨"user", "hello", none⟩]

/-- **C4, counterexample.** At `base = 0`, `costPerToken = 1`, 5 counted
units, `min = 10`, `max = 7`, the source resolves the amount to `7` (the
`max` bound wins), while the claim's clamp — in which `min` wins over `max`
— yields `10`. So the claimed formula does not hold on the code. -/
theorem tokenPrice_min_does_not_win_counterexample :
    (calculateTokenBasedPrice cexPricing (some cexEnc) cexMessages).amount = 7 ∧
      clampMinWins (cexPricing.baseAmount.getD 0
          + ((countTokens cexEnc cexMessages : Nat) : Rat) * cexPricing.costPerToken)
        cexPricing.min cexPricing.max = 10 := by
  constructor <;>
  · simp [calculateTokenBasedPrice, clampMinWins, countTokens, messageTokens,
      cexEnc, cexMessages, cexPricing]
    norm_num [max_def, min_def]

/-- Concrete pricing of the claim's worked example: `costPerToken = 100`,
`baseAmount = 0`, `min = 10000`. -/
def examplePricing : TokenBasedPricing :=
  { asset := "USDC", mint := some "MintAddr", costPerToken := 100
    baseAmount := some 0, min := some 10000, max := none, model := none }

/-- An encoder under which the example message list counts 50 units. -/
def exampleEnc : String → Nat := fun _ => 50

/-- The example message list. -/
def exampleMessages : List ChatMessage := [⟨"user", "hello", none⟩]

/-- **C4, amended.** For every token-based pricing configuration, encoder
and message list: the resolved amount is `base + tokens × costPerToken`
clamped by applying the `min` bound first and the `max` bound second (so
the `max` bound, not the `min` bound, wins when `min > max`); when unit
counting fails the resolved amount falls back to `max(base, min)` rather
than erroring; and on the claim's concrete example (`costPerToken = 100`,
`baseAmount = 0`, `min = 10000`, 50 counted units) the resolved amount is
`10000`, not `5000`. -/
theorem tokenPrice_clamp_and_fallback (pricing : TokenBasedPricing)
    (enc : String → Nat) (messages : List ChatMessage) :
    (calculateTokenBasedPrice pricing (some enc) messages).amount
        = clampMaxWins (pricing.baseAmount.getD 0
            + ((countTokens enc messages : Nat) : Rat) * pricing.costPerToken)
          pricing.min pricing.max ∧
      (calculateTokenBasedPrice pricing none messages).amount
        = (match pricing.min with
          | some m => max (pricing.baseAmount.getD 0) m
          | none => pricing.baseAmount.getD 0) ∧
      (calculateTokenBasedPrice examplePricing (some exampleEnc)
        exampleMessages).amount = 10000 := by
  refine ⟨rfl, rfl, ?_⟩
  simp [calculateTokenBasedPrice, countTokens, messageTokens,
    exampleEnc, exampleMessages, examplePricing]
  norm_num [max_def, min_def]

/-! ## Payment middleware (`payment-middleware.ts`) -/

/-- Side effects recorded while processing one request: invocation of a
dynamic price function (with its raw argument), the facilitator `verify`
call, the start of the wrapped continuation (`next()`), the facilitator
`settle` call, and the `X-PAYMENT-RESPONSE` header write. -/
inductive Ev where
  | priceCall (arg : Body)
  | verifyCall
  | handlerRun
  | settleCall
  | headerWrite
deriving DecidableEq, Repr

/-- The request fields the middleware reads. Optional string fields model
possibly-absent Express properties; `body = none` models an undefined body. -/
structure Req where
  protocol : Option String
  host : Option String
  originalUrl : Option String
  url : String
  path : String
  xPayment : Option String
  body : Option Body
deriving DecidableEq, Repr

/-- `getAbsoluteUrl` from `payment-middleware.ts`:
`(req.protocol || "http") + "://" + (req.get("host") || "localhost") +
(req.originalUrl || req.url)`. -/
def getAbsoluteUrl (req : Req) : String :=
  orDefaultStr req.protocol "http" ++ "://" ++ orDefaultStr req.host "localhost"
    ++ orDefaultStr req.originalUrl req.url

/-- `PaymentConfig` from `payment-middleware.ts` (`devMode?` is falsy when
absent, so a plain `Bool` suffices). -/
structure PaymentConfig where
  recipientWallet : String
  network : String
  facilitatorUrl : String
  devMode : Bool
deriving DecidableEq, Repr

/-- `solToLamports`: `Math.floor(parseFloat(solAmount) * 1e9)`. -/
def solToLamports (amount : Rat) : Int := (amount * 1000000000).floor

/-- The `RouteConfig` argument handed to the facilitator's
`createPaymentRequirements` (flattened from the nested object literal in
`convertPriceToRouteConfig`). -/
structure RouteConfig where
  amount : Rat
  assetAddress : String
  decimals : Nat
  network : String
  description : String
  resource : String
  mimeType : String
  maxTimeoutSeconds : Nat
deriving DecidableEq, Repr

/-- `convertPriceToRouteConfig` from `payment-middleware.ts`: SOL amounts
are converted to lamports with 9 decimals and an empty asset address;
non-SOL assets keep their amount, use 6 decimals and require a mint
address (throwing otherwise). -/
def convertPriceToRouteConfig (cfgNetwork : String) (price : PaymentPrice)
    (resource description : String) (maxTimeoutSeconds : Nat) :
    Except String RouteConfig :=
  if price.asset = "SOL" then
    .ok { amount := (solToLamports price.amount : Int)
          assetAddress := ""
          decimals := 9
          network := if cfgNetwork = "solana" then "solana" else "solana-devnet"
          description := description
          resource := resource
          mimeType := "application/json"
          maxTimeoutSeconds := maxTimeoutSeconds }
  else
    match price.mint with
    | some m =>
      .ok { amount := price.amount
            assetAddress := m
            decimals := 6
            network := if cfgNetwork = "solana" then "solana" else "solana-devnet"
            description := description
            resource := resource
            mimeType := "application/json"
            maxTimeoutSeconds := maxTimeoutSeconds }
    | none => .error "Token payment requires mint address"

/-- x402 `PaymentRequirements` (`types.ts`), with the scheme-specific
`extra` object as an association list. -/
structure PaymentRequirements where
  scheme : String
  network : String
  maxAmountRequired : Rat
  resource : String
  description : String
  payTo : String
  maxTimeoutSeconds : Nat
  asset : String
  extra : List (String × String)
deriving DecidableEq, Repr

/-- The spread `{ ...paymentRequirements, extra: { ...extra,
facilitatorUrl } }` building the requirements sent in the 402 body. -/
def withFacilitator (pr : PaymentRequirements) (facUrl : String) :
    PaymentRequirements :=
  { pr with extra := pr.extra ++ [("facilitatorUrl", facUrl)] }

/-- The facilitator's verification verdict. -/
structure VerifyResult where
  isValid : Bool
  invalidReason : Option String
deriving DecidableEq, Repr

/-- The facilitator's settlement result. -/
structure SettleResult where
  success : Bool
  transaction : Option String
  network : Option String
  errorReason : Option String
deriving DecidableEq, Repr

/-- The external payment facilitator (`x402-solana`'s `X402PaymentHandler`),
specified only at its interface boundary: challenge creation, proof
verification, settlement. -/
structure Facilitator where
  createPaymentRequirements : RouteConfig → PaymentRequirements
  verifyPayment : String → PaymentRequirements → VerifyResult
  settlePayment : String → PaymentRequirements → SettleResult

/-- How price resolution inside the middleware can fail: the empty/missing
body guard for function prices, or the price function throwing. -/
inductive PriceFail where
  | emptyBody
  | calcError (msg : String)
deriving DecidableEq, Repr

/-- The price-resolution step shared by both middleware branches: a fixed
price is returned as-is; a function price first requires a non-empty body
(`!req.body || Object.keys(req.body).length === 0`) and is then invoked
with the raw body, any failure becoming a calculation error. The returned
event list records the function invocation. -/
def priceStep (spec : PriceSpec) (body : Option Body) :
    List Ev × Except PriceFail PaymentPrice :=
  match spec with
  | .fixed p => ([], .ok p)
  | .fn f =>
    match body with
    | none => ([], .error .emptyBody)
    | some b =>
      if b.isEmpty then ([], .error .emptyBody)
      else
        match f b with
        | .error m => ([.priceCall b], .error (.calcError m))
        | .ok p => ([.priceCall b], .ok p)

/-- The route config computed for a request: resource is the absolute URL,
description mentions the path, timeout is fixed at 120 seconds. -/
def routeConfigFor (cfg : PaymentConfig) (p : PaymentPrice) (req : Req) :
    Except String RouteConfig :=
  convertPriceToRouteConfig cfg.network p (getAbsoluteUrl req)
    ("Payment required for " ++ req.path) 120

/-- The payment requirements the middleware re-derives for verification and
settlement (without the facilitator-URL extra), when price resolution and
route-config conversion both succeed. -/
def requirementsFor (cfg : PaymentConfig) (fac : Facilitator) (spec : PriceSpec)
    (req : Req) : Option PaymentRequirements :=
  match (priceStep spec req.body).2 with
  | .ok p =>
    match routeConfigFor cfg p req with
    | .ok rc => some (fac.createPaymentRequirements rc)
    | .error _ => none
  | .error _ => none

/-- The response under construction: status, JSON body, headers. -/
inductive RespBody where
  | errorBody (code message : String) (retriable : Bool)
  | paymentRequired (x402Version : Nat) (accepts : List PaymentRequirements)
      (error : String)
  | result (v : Body)
deriving DecidableEq, Repr

/-- An HTTP response as the middleware and routes produce it. -/
structure Resp where
  status : Nat
  body : RespBody
  headers : List (String × String)
deriving DecidableEq, Repr

/-- The one-shot settlement guard flags of `createPaymentMiddleware`
(`settlementInProgress` / `settlementCompleted`). -/
structure SettleSt where
  inProgress : Bool
  completed : Bool
deriving DecidableEq, Repr

/-- What one `performSettlement` invocation did. -/
inductive SettleAct where
  | skipped
  | succeeded (tx net : String)
  | failed (msg : String)
deriving DecidableEq, Repr

/-- Abstraction of
`Buffer.from(JSON.stringify({txHash, networkId})).toString("base64")`. -/
def encodePaymentResponse (tx net : String) : String := tx ++ "|" ++ net

/-- `performSettlement` from `payment-middleware.ts`: a no-op when the
one-shot flags are already set; otherwise it calls the facilitator's
`settlePayment` exactly once, records the header write on success, and in
every non-skipped outcome leaves `settlementCompleted = true` (the `finally`
clears `settlementInProgress`). The `transaction` field is checked for
truthiness, as in the source. -/
def performSettlement (fac : Facilitator) (hdr : String)
    (reqs : PaymentRequirements) (cfgNetwork : String) (s : SettleSt) :
    SettleSt × List Ev × SettleAct :=
  if s.completed || s.inProgress then (s, [], .skipped)
  else
    let r := fac.settlePayment hdr reqs
    match r.success, strTruthy r.transaction with
    | true, some tx =>
      (⟨false, true⟩, [.settleCall, .headerWrite],
        .succeeded tx (orDefaultStr r.network cfgNetwork))
    | true, none =>
      (⟨false, true⟩, [.settleCall],
        .failed (orDefaultStr r.errorReason "Payment settlement failed"))
    | false, _ =>
      (⟨false, true⟩, [.settleCall],
        .failed (orDefaultStr r.errorReason "Payment settlement failed"))

/-- One firing of the overridden `res.end`: run `performSettlement`, then
either flush the pending response unchanged (skipped), flush it with the
`X-PAYMENT-RESPONSE` header attached (success), or replace it with a 500
`SETTLEMENT_ERROR` body (failure caught by the `.catch`). -/
def endOnce (fac : Facilitator) (hdr : String) (reqs : PaymentRequirements)
    (cfgNetwork : String) (s : SettleSt) (resp : Resp) :
    SettleSt × List Ev × Resp :=
  match performSettlement fac hdr reqs cfgNetwork s with
  | (s', evs, .skipped) => (s', evs, resp)
  | (s', evs, .succeeded tx net) =>
    (s', evs,
      { resp with headers :=
          resp.headers ++ [("X-PAYMENT-RESPONSE", encodePaymentResponse tx net)] })
  | (s', evs, .failed msg) =>
    (s', evs,
      { status := 500
        body := .errorBody "SETTLEMENT_ERROR" msg true
        headers := resp.headers ++ [("Content-Type", "application/json")] })

/-- `k` sequential firings of the overridden `res.end`. The response that
actually reaches the client is the one flushed by the first firing; later
firings only thread the guard state (and, by the guard, do nothing). -/
def runEnds (fac : Facilitator) (hdr : String) (reqs : PaymentRequirements)
    (cfgNetwork : String) : Nat → SettleSt → Resp → SettleSt × List Ev × Resp
  | 0, s, resp => (s, [], resp)
  | k + 1, s, resp =>
    let r₁ := endOnce fac hdr reqs cfgNetwork s resp
    let r₂ := runEnds fac hdr reqs cfgNetwork k r₁.1 r₁.2.2
    (r₂.1, r₁.2.1 ++ r₂.2.1, r₁.2.2)

/-- `createPaymentMiddleware(price)` composed with a continuation `next`
producing the wrapped route's response, processed end to end for one
request; `endCalls` is the number of times the response-finalization hook
fires (normally 1). Returns the response sent and the event trace.

Branch structure mirrors the source: dev-mode bypass (no wrapping, no
settlement); the no-proof branch resolving the price and answering 402 with
a single challenge (a route-config conversion failure there is outside any
`try` and surfaces as an unhandled rejection); the proof branch resolving
the same price, re-deriving the same requirements, verifying, rejecting
invalid proofs with `INVALID_PAYMENT`, and otherwise running `next` with
`res.end` overridden to settle once. -/
def runPaymentMiddleware (cfg : PaymentConfig) (fac : Facilitator)
    (spec : PriceSpec) (next : Option Body → Resp) (req : Req)
    (endCalls : Nat) : Resp × List Ev :=
  if cfg.devMode then
    (next req.body, [.handlerRun])
  else
    match strTruthy req.xPayment with
    | none =>
      match priceStep spec req.body with
      | (evs, .error .emptyBody) =>
        (⟨400, .errorBody "INVALID_REQUEST" "Request body is required" false, []⟩,
          evs)
      | (evs, .error (.calcError m)) =>
        (⟨400, .errorBody "PRICE_CALCULATION_ERROR" m false, []⟩, evs)
      | (evs, .ok p) =>
        match routeConfigFor cfg p req with
        | .error m =>
          (⟨500, .errorBody "UNHANDLED_REJECTION" m false, []⟩, evs)
        | .ok rc =>
          let pr := fac.createPaymentRequirements rc
          (⟨402,
            .paymentRequired 1 [withFacilitator pr cfg.facilitatorUrl]
              "Payment required", []⟩, evs)
    | some hdr =>
      match priceStep spec req.body with
      | (evs, .error .emptyBody) =>
        (⟨400, .errorBody "INVALID_REQUEST" "Request body is required" false, []⟩,
          evs)
      | (evs, .error (.calcError m)) =>
        (⟨400, .errorBody "PRICE_CALCULATION_ERROR" m false, []⟩, evs)
      | (evs, .ok p) =>
        match routeConfigFor cfg p req with
        | .error m =>
          (⟨400, .errorBody "PAYMENT_ERROR" m false, []⟩, evs)
        | .ok rc =>
          let pr := fac.createPaymentRequirements rc
          let vr := fac.verifyPayment hdr pr
          if vr.isValid then
            let resp₀ := next req.body
            let sres := runEnds fac hdr pr cfg.network endCalls ⟨false, false⟩ resp₀
            (sres.2.2, evs ++ [.verifyCall, .handlerRun] ++ sres.2.1)
          else
            (⟨400,
              .errorBody "INVALID_PAYMENT"
                (orDefaultStr vr.invalidReason "Payment verification failed")
                false, []⟩,
              evs ++ [.verifyCall])

/-- The `POST /tools/:name/invoke` continuation (`router.ts`): validate the
body against the tool's input schema (Zod errors → `VALIDATION_ERROR`),
run the handler (throws → `EXECUTION_ERROR`), validate the result against
the output schema if declared. -/
def runToolRoute (t : RegisteredTool) (body : Option Body) : Resp :=
  match t.inputSchema.parse body with
  | .error _ =>
    ⟨400, .errorBody "VALIDATION_ERROR" "Input validation failed" false, []⟩
  | .ok validatedInput =>
    match t.handler validatedInput with
    | .error m => ⟨500, .errorBody "EXECUTION_ERROR" m true, []⟩
    | .ok result =>
      match t.outputSchema with
      | none => ⟨200, .result result, []⟩
      | some os =>
        match os.parse (some result) with
        | .ok validatedOutput => ⟨200, .result validatedOutput, []⟩
        | .error _ =>
          ⟨400, .errorBody "VALIDATION_ERROR" "Input validation failed" false, []⟩

/-- The full `POST /tools/:name/invoke` processing for a found tool: the
payment middleware built from the tool's price, wrapped around the
invoke-route continuation. -/
def processToolInvoke (cfg : PaymentConfig) (fac : Facilitator)
    (t : RegisteredTool) (req : Req) (endCalls : Nat) : Resp × List Ev :=
  runPaymentMiddleware cfg fac t.price (runToolRoute t) req endCalls

/-! ## Trace helper lemmas -/

/-- Whatever element a list is split at belongs to the list. -/
lemma mem_of_split {α : Type _} {a : α} {l l₁ l₂ : List α}
    (h : l = l₁ ++ a :: l₂) : a ∈ l := by
  subst h
  exact List.mem_append_right _ (List.mem_cons_self a l₂)

/-- Splitting a list at an element occurring exactly once is unique. -/
lemma split_unique {α : Type _} {a : α} :
    ∀ (pre : List α) {post l₁ l₂ : List α},
      pre ++ a :: post = l₁ ++ a :: l₂ → a ∉ pre → a ∉ post →
      l₁ = pre ∧ l₂ = post := by
  intro pre
  induction pre with
  | nil =>
    intro post l₁ l₂ h hpre hpost
    cases l₁ with
    | nil =>
      simp only [List.nil_append, List.cons.injEq] at h
      exact ⟨rfl, h.2.symm⟩
    | cons x xs =>
      simp only [List.nil_append, List.cons_append, List.cons.injEq] at h
      rw [h.2] at hpost
      exact absurd (List.mem_append_right _ (List.mem_cons_self a l₂)) hpost
  | cons p ps ih =>
    intro post l₁ l₂ h hpre hpost
    cases l₁ with
    | nil =>
      simp only [List.cons_append, List.nil_append, List.cons.injEq] at h
      rw [h.1]
      exact absurd (by rw [h.1]; exact List.mem_cons_self a ps) hpre
    | cons x xs =>
      simp only [List.cons_append, List.cons.injEq] at h
      have hpre' : a ∉ ps := fun hm => hpre (List.mem_cons_of_mem p hm)
      obtain ⟨h1, h2⟩ := ih h.2 hpre' hpost
      exact ⟨by rw [h.1, h1], h2⟩

/-- Every event recorded by the price-resolution step is a price-function
invocation. -/
lemma priceStep_events (spec : PriceSpec) (body : Option Body) :
    ∀ e ∈ (priceStep spec body).1, ∃ b, e = Ev.priceCall b := by
  cases spec with
  | fixed p => simp [priceStep]
  | fn f =>
    cases body with
    | none => simp [priceStep]
    | some b =>
      by_cases hb : b.isEmpty
      · simp [priceStep, hb]
      · rcases hfb : f b with m | p <;> simp [priceStep, hb, hfb]

/-- Traces containing neither a handler-run event nor a settle event
trivially satisfy both precedence properties. -/
lemma no_handler_trace_props (tr : List Ev)
    (hh : Ev.handlerRun ∉ tr) (hs : Ev.settleCall ∉ tr) :
    (∀ l₁ l₂, tr = l₁ ++ Ev.handlerRun :: l₂ →
      Ev.verifyCall ∈ l₁ ∧ Ev.settleCall ∉ l₁) ∧
    (∀ l₁ l₂, tr = l₁ ++ Ev.settleCall :: l₂ → Ev.handlerRun ∈ l₁) := by
  constructor <;> intro l₁ l₂ heq
  · exact absurd (mem_of_split heq) hh
  · exact absurd (mem_of_split heq) hs

/-- Once the one-shot guard is completed, further firings of the hook leave
state, trace and response untouched. -/
lemma runEnds_completed (fac : Facilitator) (hdr : String)
    (pr : PaymentRequirements) (net : String) (k : Nat) (s : SettleSt)
    (resp : Resp) (h : s.completed = true) :
    runEnds fac hdr pr net k s resp = (s, [], resp) := by
  induction k with
  | zero => rfl
  | succ n ih =>
    have hskip : performSettlement fac hdr pr net s = (s, [], .skipped) := by
      simp [performSettlement, h]
    simp [runEnds, endOnce, hskip, ih]

/-- Any positive number of hook firings from the fresh guard state behaves
exactly like a single firing. -/
lemma runEnds_fresh (fac : Facilitator) (hdr : String)
    (pr : PaymentRequirements) (net : String) (k : Nat) (resp : Resp) :
    runEnds fac hdr pr net (k + 1) ⟨false, false⟩ resp
      = endOnce fac hdr pr net ⟨false, false⟩ resp := by
  have hc : (endOnce fac hdr pr net ⟨false, false⟩ resp).1.completed = true := by
    rcases hm : fac.settlePayment hdr pr with ⟨succ, tx, nw, er⟩
    cases succ <;> rcases htx : strTruthy tx with _ | t <;>
      simp [endOnce, performSettlement, hm, htx]
  simp only [runEnds]
  rw [runEnds_completed fac hdr pr net k _ _ hc]
  simp

/-- From the fresh guard state, the settlement events of any number of hook
firings are one of three concrete lists. -/
lemma runEnds_fresh_events_shape (fac : Facilitator) (hdr : String)
    (pr : PaymentRequirements) (net : String) (k : Nat) (resp : Resp) :
    (runEnds fac hdr pr net k ⟨false, false⟩ resp).2.1 = [] ∨
      (runEnds fac hdr pr net k ⟨false, false⟩ resp).2.1 = [Ev.settleCall] ∨
      (runEnds fac hdr pr net k ⟨false, false⟩ resp).2.1
        = [Ev.settleCall, Ev.headerWrite] := by
  cases k with
  | zero => left; rfl
  | succ n =>
    rw [runEnds_fresh]
    rcases hm : fac.settlePayment hdr pr with ⟨succ, tx, nw, er⟩
    cases succ <;> rcases htx : strTruthy tx with _ | t <;>
      simp [endOnce, performSettlement, hm, htx]

/-- The two precedence properties for the well-formed trace of a verified
request: price-function events, then the verify call, then the handler run,
then settlement events. -/
lemma ordered_trace_props (evs sevs : List Ev)
    (hevs : ∀ e ∈ evs, ∃ b, e = Ev.priceCall b)
    (hsevs : sevs = [] ∨ sevs = [Ev.settleCall] ∨
      sevs = [Ev.settleCall, Ev.headerWrite]) :
    (∀ l₁ l₂, evs ++ [Ev.verifyCall, Ev.handlerRun] ++ sevs
        = l₁ ++ Ev.handlerRun :: l₂ → Ev.verifyCall ∈ l₁ ∧ Ev.settleCall ∉ l₁) ∧
    (∀ l₁ l₂, evs ++ [Ev.verifyCall, Ev.handlerRun] ++ sevs
        = l₁ ++ Ev.settleCall :: l₂ → Ev.handlerRun ∈ l₁) := by
  constructor
  · intro l₁ l₂ heq
    have hshape : evs ++ [Ev.verifyCall, Ev.handlerRun] ++ sevs
        = (evs ++ [Ev.verifyCall]) ++ Ev.handlerRun :: sevs := by simp
    rw [hshape] at heq
    have hpre : Ev.handlerRun ∉ evs ++ [Ev.verifyCall] := by
      intro hm
      rcases List.mem_append.mp hm with h | h
      · obtain ⟨b, hb⟩ := hevs _ h; cases hb
      · simp at h
    have hpost : Ev.handlerRun ∉ sevs := by
      rcases hsevs with h | h | h <;> subst h <;> simp
    obtain ⟨h1, _⟩ := split_unique (evs ++ [Ev.verifyCall]) heq hpre hpost
    subst h1
    constructor
    · simp
    · intro hm
      rcases List.mem_append.mp hm with h | h
      · obtain ⟨b, hb⟩ := hevs _ h; cases hb
      · simp at h
  · intro l₁ l₂ heq
    have hpre : Ev.settleCall ∉ evs ++ [Ev.verifyCall, Ev.handlerRun] := by
      intro hm
      rcases List.mem_append.mp hm with h | h
      · obtain ⟨b, hb⟩ := hevs _ h; cases hb
      · simp at h
    rcases hsevs with h | h | h <;> subst h
    · exfalso
      have hmem := mem_of_split heq
      simp only [List.append_nil] at hmem
      exact hpre hmem
    · have hshape : evs ++ [Ev.verifyCall, Ev.handlerRun] ++ [Ev.settleCall]
          = (evs ++ [Ev.verifyCall, Ev.handlerRun]) ++ Ev.settleCall :: [] := by
        simp
      rw [hshape] at heq
      obtain ⟨h1, _⟩ := split_unique _ heq hpre (by simp)
      subst h1
      simp
    · have hshape :
          evs ++ [Ev.verifyCall, Ev.handlerRun] ++ [Ev.settleCall, Ev.headerWrite]
            = (evs ++ [Ev.verifyCall, Ev.handlerRun])
              ++ Ev.settleCall :: [Ev.headerWrite] := by
        simp
      rw [hshape] at heq
      obtain ⟨h1, _⟩ := split_unique _ heq hpre (by simp)
      subst h1
      simp

/-! ## Middleware ordering and one-shot theorems (claims C1, C3) -/

/-- **C1.** For every request presenting a payment proof to a gated
endpoint (dev bypass off), in the trace of the processed request: if the
wrapped handler ran, the facilitator's verify call was made and reported
valid; every handler-run event is preceded by a verify event and by no
settle event; and every settle event is preceded by a handler-run event.
In particular the handler never executes when verification reported
invalid. -/
theorem verify_before_handler_before_settle (cfg : PaymentConfig)
    (fac : Facilitator) (spec : PriceSpec) (next : Option Body → Resp)
    (req : Req) (hdr : String) (k : Nat)
    (hdev : cfg.devMode = false)
    (hhdr : strTruthy req.xPayment = some hdr) :
    (Ev.handlerRun ∈ (runPaymentMiddleware cfg fac spec next req k).2 →
      ∃ pr, requirementsFor cfg fac spec req = some pr ∧
        (fac.verifyPayment hdr pr).isValid = true) ∧
    (∀ l₁ l₂, (runPaymentMiddleware cfg fac spec next req k).2
        = l₁ ++ Ev.handlerRun :: l₂ → Ev.verifyCall ∈ l₁ ∧ Ev.settleCall ∉ l₁) ∧
    (∀ l₁ l₂, (runPaymentMiddleware cfg fac spec next req k).2
        = l₁ ++ Ev.settleCall :: l₂ → Ev.handlerRun ∈ l₁) := by
  rcases hps : priceStep spec req.body with ⟨evs, res⟩
  have hevs : ∀ e ∈ evs, ∃ b, e = Ev.priceCall b := by
    have h := priceStep_events spec req.body
    rw [hps] at h
    exact h
  have hhmem : Ev.handlerRun ∉ evs := by
    intro hm
    obtain ⟨b, hb⟩ := hevs _ hm
    cases hb
  have hsmem : Ev.settleCall ∉ evs := by
    intro hm
    obtain ⟨b, hb⟩ := hevs _ hm
    cases hb
  cases res with
  | error e =>
    have htr : (runPaymentMiddleware cfg fac spec next req k).2 = evs := by
      cases e <;> simp [runPaymentMiddleware, hdev, hhdr, hps]
    rw [htr]
    exact ⟨fun hm => absurd hm hhmem,
      (no_handler_trace_props evs hhmem hsmem).1,
      (no_handler_trace_props evs hhmem hsmem).2⟩
  | ok p =>
    rcases hrc : routeConfigFor cfg p req with m | rc
    · have htr : (runPaymentMiddleware cfg fac spec next req k).2 = evs := by
        simp [runPaymentMiddleware, hdev, hhdr, hps, hrc]
      rw [htr]
      exact ⟨fun hm => absurd hm hhmem,
        (no_handler_trace_props evs hhmem hsmem).1,
        (no_handler_trace_props evs hhmem hsmem).2⟩
    · by_cases hv :
        (fac.verifyPayment hdr (fac.createPaymentRequirements rc)).isValid = true
      · have htr : (runPaymentMiddleware cfg fac spec next req k).2
            = evs ++ [Ev.verifyCall, Ev.handlerRun]
              ++ (runEnds fac hdr (fac.createPaymentRequirements rc) cfg.network
                  k ⟨false, false⟩ (next req.body)).2.1 := by
          simp [runPaymentMiddleware, hdev, hhdr, hps, hrc, hv]
        have hsevs := runEnds_fresh_events_shape fac hdr
          (fac.createPaymentRequirements rc) cfg.network k (next req.body)
        have hprops := ordered_trace_props evs _ hevs hsevs
        rw [htr]
        refine ⟨fun _ => ⟨fac.createPaymentRequirements rc, ?_, hv⟩,
          hprops.1, hprops.2⟩
        simp [requirementsFor, hps, hrc]
      · have hv' :
            (fac.verifyPayment hdr (fac.createPaymentRequirements rc)).isValid
              = false := by
          simpa using hv
        have htr : (runPaymentMiddleware cfg fac spec next req k).2
            = evs ++ [Ev.verifyCall] := by
          simp [runPaymentMiddleware, hdev, hhdr, hps, hrc, hv']
        have hh2 : Ev.handlerRun ∉ evs ++ [Ev.verifyCall] := by
          intro hm
          rcases List.mem_append.mp hm with h | h
          · exact hhmem h
          · simp at h
        have hs2 : Ev.settleCall ∉ evs ++ [Ev.verifyCall] := by
          intro hm
          rcases List.mem_append.mp hm with h | h
          · exact hsmem h
          · simp at h
        rw [htr]
        exact ⟨fun hm => absurd hm hh2,
          (no_handler_trace_props _ hh2 hs2).1,
          (no_handler_trace_props _ hh2 hs2).2⟩

/-- **C3.** For every verified request (dev bypass off, proof present,
price and requirements derived, verify valid), even when the
response-finalization hook fires `k ≥ 1` times, the upstream settle call
occurs exactly once and the `X-PAYMENT-RESPONSE` header write at most once,
and the whole processing result is identical to the single-firing one:
every firing after the first is a no-op. -/
theorem settlement_one_shot (cfg : PaymentConfig) (fac : Facilitator)
    (spec : PriceSpec) (next : Option Body → Resp) (req : Req) (hdr : String)
    (pr : PaymentRequirements) (k : Nat)
    (hdev : cfg.devMode = false)
    (hhdr : strTruthy req.xPayment = some hdr)
    (hpr : requirementsFor cfg fac spec req = some pr)
    (hvalid : (fac.verifyPayment hdr pr).isValid = true)
    (hk : 1 ≤ k) :
    ((runPaymentMiddleware cfg fac spec next req k).2.count Ev.settleCall = 1) ∧
    ((runPaymentMiddleware cfg fac spec next req k).2.count Ev.headerWrite ≤ 1) ∧
    runPaymentMiddleware cfg fac spec next req k
      = runPaymentMiddleware cfg fac spec next req 1 := by
  obtain ⟨k', rfl⟩ : ∃ k', k = k' + 1 := ⟨k - 1, by omega⟩
  rcases hps : priceStep spec req.body with ⟨evs, res⟩
  have hevs : ∀ e ∈ evs, ∃ b, e = Ev.priceCall b := by
    have h := priceStep_events spec req.body
    rw [hps] at h
    exact h
  unfold requirementsFor at hpr
  rw [hps] at hpr
  cases res with
  | error e => exact Option.noConfusion hpr
  | ok p =>
    have hpr' : (match routeConfigFor cfg p req with
        | .ok rc => some (fac.createPaymentRequirements rc)
        | .error _ => none) = some pr := hpr
    rcases hrc : routeConfigFor cfg p req with m | rc
    · rw [hrc] at hpr'
      exact Option.noConfusion hpr'
    · rw [hrc] at hpr'
      simp only [Option.some.injEq] at hpr'
      subst hpr'
      have hcount : ∀ j : Nat,
          (runPaymentMiddleware cfg fac spec next req (j + 1)).2
            = evs ++ [Ev.verifyCall, Ev.handlerRun]
              ++ (endOnce fac hdr (fac.createPaymentRequirements rc) cfg.network
                  ⟨false, false⟩ (next req.body)).2.1 ∧
          runPaymentMiddleware cfg fac spec next req (j + 1)
            = ((endOnce fac hdr (fac.createPaymentRequirements rc) cfg.network
                  ⟨false, false⟩ (next req.body)).2.2,
                evs ++ [Ev.verifyCall, Ev.handlerRun]
                  ++ (endOnce fac hdr (fac.createPaymentRequirements rc)
                      cfg.network ⟨false, false⟩ (next req.body)).2.1) := by
        intro j
        constructor <;>
          simp [runPaymentMiddleware, hdev, hhdr, hps, hrc, hvalid,
            runEnds_fresh]
      have hzero : ∀ e ∈ evs ++ [Ev.verifyCall, Ev.handlerRun],
          e ≠ Ev.settleCall ∧ e ≠ Ev.headerWrite := by
        intro e he
        rcases List.mem_append.mp he with h | h
        · obtain ⟨b, hb⟩ := hevs _ h
          subst hb
          exact ⟨fun hc => Ev.noConfusion hc, fun hc => Ev.noConfusion hc⟩
        · simp only [List.mem_cons, List.not_mem_nil, or_false] at h
          rcases h with rfl | rfl <;>
            exact ⟨fun hc => Ev.noConfusion hc, fun hc => Ev.noConfusion hc⟩
      have hsettle :
          ((endOnce fac hdr (fac.createPaymentRequirements rc) cfg.network
              ⟨false, false⟩ (next req.body)).2.1.count Ev.settleCall = 1) ∧
          ((endOnce fac hdr (fac.createPaymentRequirements rc) cfg.network
              ⟨false, false⟩ (next req.body)).2.1.count Ev.headerWrite ≤ 1) := by
        rcases hm : fac.settlePayment hdr (fac.createPaymentRequirements rc)
          with ⟨succ, tx, nw, er⟩
        cases succ <;> rcases htx : strTruthy tx with _ | t <;>
          simp [endOnce, performSettlement, hm, htx, List.count_cons]
      refine ⟨?_, ?_, ?_⟩
      · rw [(hcount k').1]
        rw [List.count_append]
        have h0 : (evs ++ [Ev.verifyCall, Ev.handlerRun]).count Ev.settleCall
            = 0 := by
          rw [List.count_eq_zero]
          intro hm
          exact (hzero _ hm).1 rfl
        rw [h0, Nat.zero_add]
        exact hsettle.1
      · rw [(hcount k').1]
        rw [List.count_append]
        have h0 : (evs ++ [Ev.verifyCall, Ev.handlerRun]).count Ev.headerWrite
            = 0 := by
          rw [List.count_eq_zero]
          intro hm
          exact (hzero _ hm).2 rfl
        rw [h0, Nat.zero_add]
        exact hsettle.2
      · rw [(hcount k').2, (hcount 0).2]

/-! ## Concrete configurations and witnesses -/

/-- A concrete production-mode payment configuration. -/
def cfgMain : PaymentConfig :=
  { recipientWallet := "GsbwXfJraMomNxBcjYLcG3mxkBUiyWXAB32fGbSMQRdW"
    network := "solana-devnet"
    facilitatorUrl := "https://facilitator.test"
    devMode := false }

/-- A concrete facilitator that derives challenges from the route config
(preserving the resource), accepts every proof, and settles successfully. -/
def facOk : Facilitator :=
  { createPaymentRequirements := fun rc =>
      { scheme := "exact"
        network := rc.network
        maxAmountRequired := rc.amount
        resource := rc.resource
        description := rc.description
        payTo := "GsbwXfJraMomNxBcjYLcG3mxkBUiyWXAB32fGbSMQRdW"
        maxTimeoutSeconds := rc.maxTimeoutSeconds
        asset := rc.assetAddress
        extra := [] }
    verifyPayment := fun _ _ => ⟨true, none⟩
    settlePayment := fun _ _ =>
      ⟨true, some "5SxATxsvLEWkutcZ", some "solana-devnet", none⟩ }

/-- A concrete request carrying a payment proof. -/
def paidReq : Req :=
  { protocol := some "https"
    host := some "api.example.com"
    originalUrl := some "/tools/echo/invoke?attempt=1"
    url := "/tools/echo/invoke"
    path := "/tools/echo/invoke"
    xPayment := some "cGF5bWVudC1wcm9vZg"
    body := some [("message", "hi")] }

/-- The same request without a proof. -/
def unpaidReq : Req :=
  { paidReq with xPayment := none }

/-- The route config derived for `paidReq`/`unpaidReq` with `echoTool`'s
fixed USDC price. -/
def witnessRc : RouteConfig :=
  { amount := 10000
    assetAddress := "EPjFWdd5AufqSSqeM2qN1xzybapC8G4wEGGkZwyTDt1v"
    decimals := 6
    network := "solana-devnet"
    description := "Payment required for /tools/echo/invoke"
    resource := "https://api.example.com/tools/echo/invoke?attempt=1"
    mimeType := "application/json"
    maxTimeoutSeconds := 120 }

/-- The payment requirements `facOk` derives for `witnessRc`. -/
def witnessReqs : PaymentRequirements :=
  facOk.createPaymentRequirements witnessRc

/-- Witness for C1 at the concrete configuration, facilitator and request. -/
theorem verify_before_handler_before_settle_witness :
    (cfgMain.devMode = false ∧
      strTruthy paidReq.xPayment = some "cGF5bWVudC1wcm9vZg") ∧
      ((Ev.handlerRun ∈ (runPaymentMiddleware cfgMain facOk echoTool.price
          (runToolRoute echoTool) paidReq 1).2 →
        ∃ pr, requirementsFor cfgMain facOk echoTool.price paidReq = some pr ∧
          (facOk.verifyPayment "cGF5bWVudC1wcm9vZg" pr).isValid = true) ∧
      (∀ l₁ l₂, (runPaymentMiddleware cfgMain facOk echoTool.price
          (runToolRoute echoTool) paidReq 1).2 = l₁ ++ Ev.handlerRun :: l₂ →
        Ev.verifyCall ∈ l₁ ∧ Ev.settleCall ∉ l₁) ∧
      (∀ l₁ l₂, (runPaymentMiddleware cfgMain facOk echoTool.price
          (runToolRoute echoTool) paidReq 1).2 = l₁ ++ Ev.settleCall :: l₂ →
        Ev.handlerRun ∈ l₁)) :=
  ⟨⟨rfl, by decide⟩,
    verify_before_handler_before_settle cfgMain facOk echoTool.price
      (runToolRoute echoTool) paidReq "cGF5bWVudC1wcm9vZg" 1 rfl (by decide)⟩

/-- Witness for C3 at the concrete configuration, with the hook firing
twice. -/
theorem settlement_one_shot_witness :
    (cfgMain.devMode = false ∧
      strTruthy paidReq.xPayment = some "cGF5bWVudC1wcm9vZg" ∧
      requirementsFor cfgMain facOk echoTool.price paidReq = some witnessReqs ∧
      (facOk.verifyPayment "cGF5bWVudC1wcm9vZg" witnessReqs).isValid = true ∧
      1 ≤ 2) ∧
      (((runPaymentMiddleware cfgMain facOk echoTool.price
          (runToolRoute echoTool) paidReq 2).2.count Ev.settleCall = 1) ∧
      ((runPaymentMiddleware cfgMain facOk echoTool.price
          (runToolRoute echoTool) paidReq 2).2.count Ev.headerWrite ≤ 1) ∧
      runPaymentMiddleware cfgMain facOk echoTool.price
          (runToolRoute echoTool) paidReq 2
        = runPaymentMiddleware cfgMain facOk echoTool.price
          (runToolRoute echoTool) paidReq 1) :=
  ⟨⟨rfl, by decide, rfl, rfl, by decide⟩,
    settlement_one_shot cfgMain facOk echoTool.price (runToolRoute echoTool)
      paidReq "cGF5bWVudC1wcm9vZg" witnessReqs 2 rfl (by decide) rfl
      rfl (by decide)⟩

/-! ## 402 challenge shape (claim C5) -/

/-- Both success branches of `convertPriceToRouteConfig` copy the resource
argument into the route config unchanged. -/
lemma routeConfig_resource {cfgNetwork : String} {p : PaymentPrice}
    {resource description : String} {maxT : Nat} {rc : RouteConfig}
    (h : convertPriceToRouteConfig cfgNetwork p resource description maxT
      = .ok rc) :
    rc.resource = resource := by
  unfold convertPriceToRouteConfig at h
  by_cases ha : p.asset = "SOL"
  · rw [if_pos ha] at h
    simp only [Except.ok.injEq] at h
    rw [← h]
  · rw [if_neg ha] at h
    rcases hm : p.mint with _ | m
    · rw [hm] at h
      exact Except.noConfusion h
    · rw [hm] at h
      simp only [Except.ok.injEq] at h
      rw [← h]

/-- **C5.** For every request to a gated endpoint without an `X-Payment`
header whose price resolves successfully (and converts to a route config),
given the spec'd facilitator interface (`createChallenge` preserves the
resource), the response is a 402 whose body carries an `accepts` list of
exactly one challenge, and that challenge's `resource` equals the request's
absolute URL assembled from protocol, host, and original path-and-query. -/
theorem no_proof_402_single_challenge (cfg : PaymentConfig) (fac : Facilitator)
    (spec : PriceSpec) (next : Option Body → Resp) (req : Req) (k : Nat)
    (p : PaymentPrice) (rc : RouteConfig) (proto hostName pathQuery : String)
    (hdev : cfg.devMode = false)
    (hhdr : strTruthy req.xPayment = none)
    (hprice : (priceStep spec req.body).2 = .ok p)
    (hrc : routeConfigFor cfg p req = .ok rc)
    (hres : ∀ rcx, (fac.createPaymentRequirements rcx).resource = rcx.resource)
    (hproto : req.protocol = some proto) (hpne : proto ≠ "")
    (hhost : req.host = some hostName) (hhne : hostName ≠ "")
    (hurl : req.originalUrl = some pathQuery) (hune : pathQuery ≠ "") :
    (runPaymentMiddleware cfg fac spec next req k).1.status = 402 ∧
      ∃ ch, (runPaymentMiddleware cfg fac spec next req k).1.body
          = .paymentRequired 1 [ch] "Payment required" ∧
        ch.resource = proto ++ "://" ++ hostName ++ pathQuery := by
  rcases hps : priceStep spec req.body with ⟨evs, res⟩
  rw [hps] at hprice
  have hres2 : res = .ok p := hprice
  subst hres2
  have hurlEq : getAbsoluteUrl req = proto ++ "://" ++ hostName ++ pathQuery := by
    simp [getAbsoluteUrl, orDefaultStr, strTruthy, hproto, hhost, hurl,
      hpne, hhne, hune]
  have hmain : runPaymentMiddleware cfg fac spec next req k
      = (⟨402, .paymentRequired 1
          [withFacilitator (fac.createPaymentRequirements rc) cfg.facilitatorUrl]
          "Payment required", []⟩, evs) := by
    simp [runPaymentMiddleware, hdev, hhdr, hps, hrc]
  rw [hmain]
  refine ⟨rfl,
    ⟨withFacilitator (fac.createPaymentRequirements rc) cfg.facilitatorUrl,
      rfl, ?_⟩⟩
  have hwf : (withFacilitator (fac.createPaymentRequirements rc)
      cfg.facilitatorUrl).resource
      = (fac.createPaymentRequirements rc).resource := rfl
  rw [hwf, hres rc, routeConfig_resource hrc, hurlEq]

/-- Witness for C5 at the concrete unpaid request. -/
theorem no_proof_402_single_challenge_witness :
    (cfgMain.devMode = false ∧
      strTruthy unpaidReq.xPayment = none ∧
      (priceStep echoTool.price unpaidReq.body).2 = .ok usdcPrice ∧
      routeConfigFor cfgMain usdcPrice unpaidReq = .ok witnessRc ∧
      (∀ rcx, (facOk.createPaymentRequirements rcx).resource = rcx.resource) ∧
      unpaidReq.protocol = some "https" ∧
      unpaidReq.host = some "api.example.com" ∧
      unpaidReq.originalUrl = some "/tools/echo/invoke?attempt=1") ∧
      ((runPaymentMiddleware cfgMain facOk echoTool.price
          (runToolRoute echoTool) unpaidReq 1).1.status = 402 ∧
        ∃ ch, (runPaymentMiddleware cfgMain facOk echoTool.price
            (runToolRoute echoTool) unpaidReq 1).1.body
            = .paymentRequired 1 [ch] "Payment required" ∧
          ch.resource
            = "https" ++ "://" ++ "api.example.com"
              ++ "/tools/echo/invoke?attempt=1") :=
  ⟨⟨rfl, by decide, rfl, rfl, fun _ => rfl, rfl, rfl, rfl⟩,
    no_proof_402_single_challenge cfgMain facOk echoTool.price
      (runToolRoute echoTool) unpaidReq 1 usdcPrice
      witnessRc "https" "api.example.com" "/tools/echo/invoke?attempt=1"
      rfl (by decide) rfl rfl (fun _ => rfl)
      rfl (by decide) rfl (by decide) rfl (by decide)⟩

/-! ## Empty-body guard for function prices (claim C9) -/

/-- **C9.** For every endpoint gated with a function-valued price and every
request whose body is absent or an empty object — regardless of whether an
`X-Payment` header is present, so in both the challenge path and the
verification path — the middleware answers 400 `INVALID_REQUEST`
("Request body is required") with an empty event trace: in particular the
price function is never invoked. -/
theorem empty_body_rejected_before_price (cfg : PaymentConfig)
    (fac : Facilitator) (f : Body → Except String PaymentPrice)
    (next : Option Body → Resp) (req : Req) (k : Nat)
    (hdev : cfg.devMode = false)
    (hbody : req.body = none ∨ req.body = some []) :
    runPaymentMiddleware cfg fac (.fn f) next req k
        = (⟨400, .errorBody "INVALID_REQUEST" "Request body is required" false,
            []⟩, []) ∧
      ∀ b, Ev.priceCall b ∉ (runPaymentMiddleware cfg fac (.fn f) next req k).2 := by
  have h1 : runPaymentMiddleware cfg fac (.fn f) next req k
      = (⟨400, .errorBody "INVALID_REQUEST" "Request body is required" false,
          []⟩, []) := by
    rcases hbody with h | h <;>
      rcases hx : strTruthy req.xPayment with _ | hdr <;>
        simp [runPaymentMiddleware, hdev, hx, priceStep, h]
  refine ⟨h1, fun b hm => ?_⟩
  rw [h1] at hm
  simp at hm

/-- A request with a proof but an empty body object. -/
def emptyBodyReq : Req :=
  { paidReq with body := some [] }

/-- Witness for C9: a function-priced endpoint, a proof-carrying request
with an empty body. -/
theorem empty_body_rejected_before_price_witness :
    (cfgMain.devMode = false ∧
      (emptyBodyReq.body = none ∨ emptyBodyReq.body = some [])) ∧
      (runPaymentMiddleware cfgMain facOk
          (.fn (fun _ => .ok ⟨"SOL", 1, none⟩)) (runToolRoute echoTool)
          emptyBodyReq 1
        = (⟨400, .errorBody "INVALID_REQUEST" "Request body is required" false,
            []⟩, []) ∧
      ∀ b, Ev.priceCall b ∉ (runPaymentMiddleware cfgMain facOk
          (.fn (fun _ => .ok ⟨"SOL", 1, none⟩)) (runToolRoute echoTool)
          emptyBodyReq 1).2) :=
  ⟨⟨rfl, Or.inr rfl⟩,
    empty_body_rejected_before_price cfgMain facOk
      (fun _ => .ok ⟨"SOL", 1, none⟩) (runToolRoute echoTool) emptyBodyReq 1
      rfl (Or.inr rfl)⟩

/-! ## Price function sees the raw body (claim C2) -/

/-- A schema rejecting every input (stands for a Zod schema the probe body
violates). -/
def rejectingSchema : Schema :=
  { parse := fun _ => .error "ZodError: expected message string"
    json := [("type", "object")] }

/-- A function-priced tool whose schema rejects the probe body. -/
def strictTool : RegisteredTool :=
  { name := "strict-tool"
    description := "Tool whose schema rejects the probe body"
    inputSchema := rejectingSchema
    outputSchema := none
    price := .fn (fun _ => .ok usdcPrice)
    handler := fun _ => .ok [("ok", "true")] }

/-- A proof-carrying request whose body fails the tool's schema. -/
def rawBodyReq : Req :=
  { protocol := some "https"
    host := some "api.example.com"
    originalUrl := some "/tools/strict-tool/invoke"
    url := "/tools/strict-tool/invoke"
    path := "/tools/strict-tool/invoke"
    xPayment := some "cGF5bWVudC1wcm9vZg"
    body := some [("wrong", "1")] }

/-- **C2 (violation).** The body `{"wrong": "1"}` fails `strictTool`'s input
schema, yet processing the invoke request applies the tool's price function
to exactly that raw, unvalidated body: schema validation only happens after
the payment middleware, so dynamic price functions run on unvalidated
input, contrary to the claim (and to §4.2 of the spec, as §8 itself
flags). -/
theorem price_fn_invoked_on_unvalidated_body :
    strictTool.inputSchema.parse rawBodyReq.body
        = .error "ZodError: expected message string" ∧
      Ev.priceCall [("wrong", "1")]
        ∈ (processToolInvoke cfgMain facOk strictTool rawBodyReq 1).2 := by
  constructor
  · rfl
  · decide

/-! ## Chat completions gating and forwarding (`router.ts`, claims C6, C10) -/

/-- The `chatPaymentPrice` router option as JavaScript sees it: absent
(`undefined`), explicitly `null`, a fixed price, a token-based pricing
spec, or a custom function of the message list. -/
inductive ChatPriceConfig where
  | undef
  | explicitNull
  | fixed (p : PaymentPrice)
  | tokenBased (t : TokenBasedPricing)
  | custom (f : List ChatMessage → Except String PaymentPrice)

/-- The gating decision of the chat completions route in `router.ts`: the
payment middleware is applied iff
`config.chatPaymentPrice !== null && config.chatPaymentPrice !== undefined`.
When the gate is not applied, `handleChatRequest` runs with no payment
check. -/
def chatGateApplied : ChatPriceConfig → Bool
  | .undef => false
  | .explicitNull => false
  | .fixed _ => true
  | .tokenBased _ => true
  | .custom _ => true

/-- The gating decision as the claim words it: chat is free only when the
chat price is explicitly `null`; an absent option gets a safe non-free
default and is still gated. Stated from the spec's words, for comparison
with `chatGateApplied`. -/
def chatGateClaim : ChatPriceConfig → Bool
  | .explicitNull => false
  | _ => true

/-- **C6, counterexample.** With the chat price option simply absent
(`undefined`), the active router skips the payment gate entirely — it does
not apply a safe non-free default — while the claim says the request should
still be gated. -/
theorem chat_undefined_price_skips_gate_counterexample :
    chatGateApplied ChatPriceConfig.undef = false ∧
      chatGateClaim ChatPriceConfig.undef = true :=
  ⟨rfl, rfl⟩

/-- **C6, amended.** The chat completions endpoint is payment-gated exactly
when the chat price option is present and non-null: both an explicit `null`
and an absent (`undefined`) option leave chat completions free, and no
default price is applied in either case. -/
theorem chat_gate_iff_price_configured (cp : ChatPriceConfig) :
    chatGateApplied cp = true ↔
      cp ≠ ChatPriceConfig.undef ∧ cp ≠ ChatPriceConfig.explicitNull := by
  cases cp <;> simp [chatGateApplied]

/-- A tool declaration in OpenAI function-call format
(`convertToolsToOpenAIFormat`). -/
structure OpenAIToolDecl where
  name : String
  description : String
  parameters : List (String × String)
deriving DecidableEq, Repr

/-- `convertToolsToOpenAIFormat` from `router.ts`. -/
def convertToolsToOpenAIFormat (tools : List RegisteredTool) :
    List OpenAIToolDecl :=
  tools.map (fun t => ⟨t.name, t.description, t.inputSchema.json⟩)

/-- The fields `handleChatRequest` destructures from the request body. -/
structure ChatBody where
  model : Option String
  messages : Option (List ChatMessage)
  temperature : Option Rat
  max_tokens : Option Nat

/-- The request `handleChatRequest` hands to
`openai.chat.completions.create`. -/
structure OpenAIRequest where
  model : String
  messages : List ChatMessage
  tools : Option (List OpenAIToolDecl)
  tool_choice : Option String
  temperature : Option Rat
  max_tokens : Option Nat

/-- `handleChatRequest` from `router.ts`, up to the completion-backend
call: requests without a messages array are rejected with 400
`INVALID_REQUEST`; otherwise all registered tools are advertised and the
backend request is built. The forwarded `model` is the literal `"gpt-4o"`;
the caller's `model` field is destructured but never used. -/
def buildChatBackendRequest (reg : ToolRegistry) (body : ChatBody) :
    Except Resp OpenAIRequest :=
  match body.messages with
  | none =>
    .error ⟨400, .errorBody "INVALID_REQUEST" "Messages array is required"
      false, []⟩
  | some msgs =>
    let availableTools := reg.getAll
    let allOpenaiTools := convertToolsToOpenAIFormat availableTools
    let toolsToSend :=
      if allOpenaiTools.length > 0 then some allOpenaiTools else none
    .ok { model := "gpt-4o"
          messages := msgs
          tools := toolsToSend
          tool_choice :=
            match toolsToSend with
            | some _ => some "auto"
            | none => none
          temperature := body.temperature
          max_tokens := body.max_tokens }

/-- **C10.** The caller's `model` field is ignored by the chat completions
endpoint: changing it never changes the request forwarded to the completion
backend, and whenever a backend request is built, its model is the fixed
string `"gpt-4o"`. -/
theorem chat_model_field_ignored (reg : ToolRegistry) (body : ChatBody)
    (m₁ m₂ : Option String) :
    buildChatBackendRequest reg { body with model := m₁ }
        = buildChatBackendRequest reg { body with model := m₂ } ∧
      (∀ r, buildChatBackendRequest reg body = .ok r → r.model = "gpt-4o") := by
  constructor
  · rfl
  · intro r hr
    cases hb : body.messages with
    | none =>
      rw [buildChatBackendRequest, hb] at hr
      exact Except.noConfusion hr
    | some msgs =>
      rw [buildChatBackendRequest, hb] at hr
      simp only [Except.ok.injEq] at hr
      rw [← hr]

/-- A concrete chat body naming a different model. -/
def chatBodyW : ChatBody :=
  { model := some "gpt-3.5-turbo"
    messages := some [⟨"user", "What tools do you have?", none⟩]
    temperature := none
    max_tokens := none }

/-- Witness for C10 at a registry holding `echoTool` and a body asking for
`gpt-3.5-turbo`: the built backend request names `gpt-4o`. -/
theorem chat_model_field_ignored_witness :
    (buildChatBackendRequest ⟨[("echo", echoTool)]⟩
        { chatBodyW with model := some "m1" }
      = buildChatBackendRequest ⟨[("echo", echoTool)]⟩
        { chatBodyW with model := some "m2" }) ∧
      ∃ r, buildChatBackendRequest ⟨[("echo", echoTool)]⟩ chatBodyW = .ok r ∧
        r.model = "gpt-4o" :=
  ⟨(chat_model_field_ignored ⟨[("echo", echoTool)]⟩ chatBodyW
      (some "m1") (some "m2")).1,
    ⟨_, rfl,
      (chat_model_field_ignored ⟨[("echo", echoTool)]⟩ chatBodyW
        none none).2 _ rfl⟩⟩
